import Mathlib

/-!
Verification of the location-sync job (`jobs/sync_locations.py`).

The Python source is shallowly embedded below.  CSV rows are embedded as the
structure `Row` (all three fields present) for the functional claims, and as
`RawRow` (each field optional, an absent field standing for a dict key whose
access raises `KeyError`) for the error-handling claim; the fallible variants
`get_statesE`, `get_citiesE`, `get_location_sitesE` and `get_source_dataE`
return `none` exactly when the Python code would raise, and agree with the
total variants on well-formed rows (`get_source_dataE_agrees`).

Python `set(...)` comprehensions are embedded with `List.dedup` (set semantics:
same membership, no duplicates; iteration order of a Python set is unspecified,
so any fixed order is a faithful choice).  `str.endswith` is embedded as a
suffix test on the character list.  The records built by the job are Python
dicts with a fixed shape, embedded as the structure `LocationRecord` whose
field names are kept from `LocationModel`; the two parent keys are absent on
State records, embedded as `none`.

The reconciler (diff/sync engine) is not part of the repository's source: the
job delegates it to the `nautobot_ssot`/diffsync framework, and the overridden
`run` method shown in the file stops after computing the source data.  The
reconciler and writer definitions are therefore modelled from the spec, as
their doc comments say.
-/

namespace WayneJobs

/-- A CSV row with the three columns the job reads, all present. -/
structure Row where
  name : String
  city : String
  state : String
  deriving DecidableEq, Repr

/-- A CSV row as a string dict: a `none` field is an absent key, whose access
raises `KeyError` in Python. -/
structure RawRow where
  name : Option String
  city : Option String
  state : Option String
  deriving DecidableEq, Repr

/-- The fixed record shape of `LocationModel` (field names kept from the
source); the parent keys are absent (`none`) on State records. -/
structure LocationRecord where
  name : String
  location_type__name : String
  status__name : String
  parent__name : Option String := none
  parent__location_type__name : Option String := none
  description : String
  deriving DecidableEq, Repr

/-- The dict `STATE_ABBREVIATION_TO_FULL_NAME_MAP` from the source, verbatim,
as an association list. -/
def STATE_ABBREVIATION_TO_FULL_NAME_MAP : List (String × String) :=
  [("AL", "Alabama"), ("KY", "Kentucky"), ("OH", "Ohio"),
   ("AK", "Alaska"), ("LA", "Louisiana"), ("OK", "Oklahoma"),
   ("AZ", "Arizona"), ("ME", "Maine"), ("OR", "Oregon"),
   ("AR", "Arkansas"), ("MD", "Maryland"), ("PA", "Pennsylvania"),
   ("AS", "American Samoa"), ("MA", "Massachusetts"), ("PR", "Puerto Rico"),
   ("CA", "California"), ("MI", "Michigan"), ("RI", "Rhode Island"),
   ("CO", "Colorado"), ("MN", "Minnesota"), ("SC", "South Carolina"),
   ("CT", "Connecticut"), ("MS", "Mississippi"), ("SD", "South Dakota"),
   ("DE", "Delaware"), ("MO", "Missouri"), ("TN", "Tennessee"),
   ("DC", "District of Columbia"), ("MT", "Montana"), ("TX", "Texas"),
   ("FL", "Florida"), ("NE", "Nebraska"), ("TT", "Trust Territories"),
   ("GA", "Georgia"), ("NV", "Nevada"), ("UT", "Utah"),
   ("GU", "Guam"), ("NH", "New Hampshire"), ("VT", "Vermont"),
   ("HI", "Hawaii"), ("NJ", "New Jersey"), ("VA", "Virginia"),
   ("ID", "Idaho"), ("NM", "New Mexico"), ("VI", "Virgin Islands"),
   ("IL", "Illinois"), ("NY", "New York"), ("WA", "Washington"),
   ("IN", "Indiana"), ("NC", "North Carolina"), ("WV", "West Virginia"),
   ("IA", "Iowa"), ("ND", "North Dakota"), ("WI", "Wisconsin"),
   ("KS", "Kansas"), ("MP", "Northern Mariana Islands"), ("WY", "Wyoming")]

/-- Modelled from the spec: the State-Code Normalizer function itself is absent
from the source file (only its lookup table `STATE_ABBREVIATION_TO_FULL_NAME_MAP`
is declared there, and is never applied); per the spec it returns the full name
on a table hit and the input unchanged otherwise. -/
def normalize_state_code (s : String) : String :=
  (STATE_ABBREVIATION_TO_FULL_NAME_MAP.lookup s).getD s

/-- Python `str.endswith`: the second string is a suffix of the first. -/
def endswith (s sfx : String) : Bool :=
  sfx.data.isSuffixOf s.data

/-- The State record dict built in `get_states` (no parent keys). -/
def mkStateRecord (state_name : String) : LocationRecord :=
  { name := state_name
    location_type__name := "State"
    status__name := "Active"
    description := "The state of '" ++ state_name ++ "'." }

/-- Embedding of `get_states`: one record per distinct `state` value. -/
def get_states (records : List Row) : List LocationRecord :=
  ((records.map fun r => r.state).dedup).map mkStateRecord

/-- The City record dict built in `get_cities` for a `(city_name, state_name)`
pair. -/
def mkCityRecord (p : String × String) : LocationRecord :=
  { name := p.1
    location_type__name := "City"
    status__name := "Active"
    parent__name := some p.2
    parent__location_type__name := some "State"
    description := "The city of '" ++ p.1 ++ "'." }

/-- Embedding of `get_cities`: one record per distinct `(city, state)`
pair. -/
def get_cities (records : List Row) : List LocationRecord :=
  ((records.map fun r => (r.city, r.state)).dedup).map mkCityRecord

/-- The Site record dict built in `get_location_sites`. -/
def mkSiteRecord (site_name city_name location_type__name : String) :
    LocationRecord :=
  { name := site_name
    location_type__name := location_type__name
    status__name := "Active"
    parent__name := some city_name
    parent__location_type__name := some "City"
    description := "The " ++ location_type__name ++ " of '" ++ site_name ++ "'." }

/-- The warning `get_location_sites` logs for an unclassifiable row. -/
def siteWarning (site_name : String) : String :=
  "'" ++ site_name ++ "' is not a Branch or Data Center"

/-- Embedding of `get_location_sites`: the loop over rows; the second
component collects the logged warning messages. -/
def get_location_sites : List Row → List LocationRecord × List String
  | [] => ([], [])
  | site :: rest =>
    let tail := get_location_sites rest
    if endswith site.name "-BR" then
      (mkSiteRecord site.name site.city "Branch" :: tail.1, tail.2)
    else if endswith site.name "-DC" then
      (mkSiteRecord site.name site.city "Data Center" :: tail.1, tail.2)
    else
      (tail.1, siteWarning site.name :: tail.2)

/-- Embedding of `get_source_data`: states, then cities, then sites. -/
def get_source_data (records : List Row) : List LocationRecord :=
  get_states records ++ get_cities records ++ (get_location_sites records).1

/-- Embedding of `get_states` on raw dict rows: reading the absent `state` key
raises, which propagates (`none`). -/
def get_statesE (records : List RawRow) : Option (List LocationRecord) :=
  (records.mapM fun r : RawRow => r.state).map fun sts =>
    sts.dedup.map mkStateRecord

/-- Embedding of `get_cities` on raw dict rows. -/
def get_citiesE (records : List RawRow) : Option (List LocationRecord) :=
  (records.mapM fun r : RawRow => do pure ((← r.city), (← r.state))).map
    fun ps : List (String × String) => ps.dedup.map mkCityRecord

/-- Embedding of `get_location_sites` on raw dict rows: the `name` and `city`
keys are read before the suffix test, so an absent key fails the whole loop
even on a row that would otherwise be skipped. -/
def get_location_sitesE :
    List RawRow → Option (List LocationRecord × List String)
  | [] => some ([], [])
  | site :: rest => do
    let site_name ← site.name
    let city_name ← site.city
    let tail ← get_location_sitesE rest
    if endswith site_name "-BR" then
      pure (mkSiteRecord site_name city_name "Branch" :: tail.1, tail.2)
    else if endswith site_name "-DC" then
      pure (mkSiteRecord site_name city_name "Data Center" :: tail.1, tail.2)
    else
      pure (tail.1, siteWarning site_name :: tail.2)

/-- Embedding of `get_source_data` on raw dict rows: the list display
evaluates the three splats in order, and any `KeyError` aborts the whole
expansion. -/
def get_source_dataE (records : List RawRow) : Option (List LocationRecord) := do
  let sts ← get_statesE records
  let cts ← get_citiesE records
  let sites ← get_location_sitesE records
  pure (sts ++ cts ++ sites.1)

/-- A `Row` as the dict `csv.DictReader` yields for a well-formed CSV. -/
def Row.toRaw (r : Row) : RawRow :=
  ⟨some r.name, some r.city, some r.state⟩

/-- A record's identity: the `(name, location_type)` pair. -/
def record_key (r : LocationRecord) : String × String :=
  (r.name, r.location_type__name)

/-- The attributes the reconciler compares:
`(parent_name, parent_location_type, status)`. -/
def record_attrs (r : LocationRecord) : Option String × Option String × String :=
  (r.parent__name, r.parent__location_type__name, r.status__name)

/-- Modelled from the spec: the snapshot the Snapshot Loader returns, a mapping
from `(name, location_type)` to the persisted
`(parent_name, parent_location_type, status)` tuple.  Embedded as an
association list read through `List.lookup`. -/
abbrev Store := List ((String × String) × (Option String × Option String × String))

/-- The reconciler's per-record decision. -/
inductive Decision where
  | create
  | update
  | noop
  deriving DecidableEq, Repr

/-- Lookup in the snapshot mapping: the most recent binding of a key wins. -/
def store_lookup : Store → String × String →
    Option (Option String × Option String × String)
  | [], _ => none
  | (k, v) :: rest, k' => if k' = k then some v else store_lookup rest k'

/-- Modelled from the spec: the Reconciler's decision for one desired record —
absent from the snapshot means CREATE; present with a different
`(parent_name, parent_location_type, status)` tuple means UPDATE; identical
means NO-OP.  The diff engine itself is framework code outside this
repository's source file. -/
def reconcile_decision (snapshot : Store) (r : LocationRecord) : Decision :=
  match store_lookup snapshot (record_key r) with
  | none => Decision.create
  | some attrs => if attrs = record_attrs r then Decision.noop else Decision.update

/-- Modelled from the spec: the ordered decision list for the desired records,
each decided against the single snapshot read at the start of the run. -/
def run_decisions (snapshot : Store) (desired : List LocationRecord) :
    List (LocationRecord × Decision) :=
  desired.map fun r => (r, reconcile_decision snapshot r)

/-- Modelled from the spec: one Writer step — CREATE and UPDATE persist the
record's attributes under its key (the store keeps one tuple per key), NO-OP
writes nothing. -/
def write_decision (store : Store) (p : LocationRecord × Decision) : Store :=
  match p.2 with
  | Decision.noop => store
  | _ => (record_key p.1, record_attrs p.1) :: store

/-- Modelled from the spec: the Writer applies the run's decisions in order,
starting from the store state the snapshot was read from. -/
def run_writer (snapshot : Store) (desired : List LocationRecord) : Store :=
  (run_decisions snapshot desired).foldl write_decision snapshot

/-- Modelled from the spec: one full pipeline run — expand the rows, decide
each desired record against the snapshot, apply the writes — returning the
decision list and the store it leaves behind. -/
def run_pipeline (store : Store) (rows : List Row) :
    List (LocationRecord × Decision) × Store :=
  (run_decisions store (get_source_data rows),
   run_writer store (get_source_data rows))

/-! ### Concrete inputs used by the claims -/

/-- The two-row scenario from the spec. -/
def dallasRows : List Row :=
  [⟨"DAL01-DC", "Dallas", "TX"⟩, ⟨"DAL02-BR", "Dallas", "TX"⟩]

/-- Two rows whose cities share a name across two states. -/
def springfieldRows : List Row :=
  [⟨"SPR01-DC", "Springfield", "IL"⟩, ⟨"SPR02-DC", "Springfield", "OH"⟩]

/-- Two rows sharing a site name but not a city. -/
def dupRows : List Row :=
  [⟨"DUP-DC", "CityA", "ST"⟩, ⟨"DUP-DC", "CityB", "ST"⟩]

/-- Three rows exercising each classification outcome. -/
def austinRows : List Row :=
  [⟨"AUSTIN-HQ", "Austin", "TX"⟩, ⟨"AUSTIN-DC", "Austin", "TX"⟩,
   ⟨"AUSTIN-BR", "Austin", "TX"⟩]

/-! ### Helper lemmas -/

theorem lookup_eq_none_of_key_not_mem {l : List (String × String)} {s : String}
    (h : s ∉ l.map Prod.fst) : l.lookup s = none := by
  induction l with
  | nil => rfl
  | cons p t ih =>
    simp only [List.map_cons, List.mem_cons, not_or] at h
    rw [List.lookup_cons]
    have hne : (s == p.1) = false := beq_eq_false_iff_ne.mpr h.1
    rw [hne]
    exact ih h.2

theorem mem_get_states_iff {rows : List Row} {x : LocationRecord} :
    x ∈ get_states rows ↔ ∃ r ∈ rows, x = mkStateRecord r.state := by
  simp only [get_states, List.mem_map, List.mem_dedup]
  constructor
  · rintro ⟨s, ⟨r, hr, rfl⟩, rfl⟩
    exact ⟨r, hr, rfl⟩
  · rintro ⟨r, hr, rfl⟩
    exact ⟨r.state, ⟨r, hr, rfl⟩, rfl⟩

theorem mem_get_cities_iff {rows : List Row} {x : LocationRecord} :
    x ∈ get_cities rows ↔ ∃ r ∈ rows, x = mkCityRecord (r.city, r.state) := by
  simp only [get_cities, List.mem_map, List.mem_dedup]
  constructor
  · rintro ⟨p, ⟨r, hr, rfl⟩, rfl⟩
    exact ⟨r, hr, rfl⟩
  · rintro ⟨r, hr, rfl⟩
    exact ⟨(r.city, r.state), ⟨r, hr, rfl⟩, rfl⟩

theorem mem_sites_iff {rows : List Row} {x : LocationRecord} :
    x ∈ (get_location_sites rows).1 ↔
      ∃ r ∈ rows,
        (endswith r.name "-BR" = true ∧ x = mkSiteRecord r.name r.city "Branch") ∨
        (endswith r.name "-BR" = false ∧ endswith r.name "-DC" = true ∧
          x = mkSiteRecord r.name r.city "Data Center") := by
  induction rows with
  | nil => simp [get_location_sites]
  | cons site rest ih =>
    by_cases hbr : endswith site.name "-BR" = true
    · simp only [get_location_sites, hbr, if_true, List.mem_cons, ih,
        List.mem_cons]
      constructor
      · rintro (rfl | ⟨r, hr, hcase⟩)
        · exact ⟨site, Or.inl rfl, Or.inl ⟨hbr, rfl⟩⟩
        · exact ⟨r, Or.inr hr, hcase⟩
      · rintro ⟨r, rfl | hr, hcase⟩
        · rcases hcase with ⟨_, rfl⟩ | ⟨hbr', _, _⟩
          · exact Or.inl rfl
          · rw [hbr] at hbr'; exact absurd hbr' (by simp)
        · exact Or.inr ⟨r, hr, hcase⟩
    · rw [Bool.not_eq_true] at hbr
      by_cases hdc : endswith site.name "-DC" = true
      · simp only [get_location_sites, hbr, Bool.false_eq_true, if_false, hdc,
          if_true, List.mem_cons, ih]
        constructor
        · rintro (rfl | ⟨r, hr, hcase⟩)
          · exact ⟨site, Or.inl rfl, Or.inr ⟨hbr, hdc, rfl⟩⟩
          · exact ⟨r, Or.inr hr, hcase⟩
        · rintro ⟨r, rfl | hr, hcase⟩
          · rcases hcase with ⟨hbr', _⟩ | ⟨_, _, rfl⟩
            · rw [hbr] at hbr'; exact absurd hbr' (by simp)
            · exact Or.inl rfl
          · exact Or.inr ⟨r, hr, hcase⟩
      · rw [Bool.not_eq_true] at hdc
        simp only [get_location_sites, hbr, Bool.false_eq_true, if_false, hdc,
          List.mem_cons, ih]
        constructor
        · rintro ⟨r, hr, hcase⟩
          exact ⟨r, Or.inr hr, hcase⟩
        · rintro ⟨r, rfl | hr, hcase⟩
          · rcases hcase with ⟨hbr', _⟩ | ⟨_, hdc', _⟩
            · rw [hbr] at hbr'; exact absurd hbr' (by simp)
            · rw [hdc] at hdc'; exact absurd hdc' (by simp)
          · exact ⟨r, hr, hcase⟩

theorem mem_warnings_iff {rows : List Row} {w : String} :
    w ∈ (get_location_sites rows).2 ↔
      ∃ r ∈ rows, endswith r.name "-BR" = false ∧
        endswith r.name "-DC" = false ∧ w = siteWarning r.name := by
  induction rows with
  | nil => simp [get_location_sites]
  | cons site rest ih =>
    by_cases hbr : endswith site.name "-BR" = true
    · simp only [get_location_sites, hbr, if_true, ih, List.mem_cons]
      constructor
      · rintro ⟨r, hr, hcase⟩
        exact ⟨r, Or.inr hr, hcase⟩
      · rintro ⟨r, rfl | hr, hbr', hrest⟩
        · rw [hbr] at hbr'; exact absurd hbr' (by simp)
        · exact ⟨r, hr, hbr', hrest⟩
    · rw [Bool.not_eq_true] at hbr
      by_cases hdc : endswith site.name "-DC" = true
      · simp only [get_location_sites, hbr, Bool.false_eq_true, if_false, hdc,
          if_true, ih, List.mem_cons]
        constructor
        · rintro ⟨r, hr, hcase⟩
          exact ⟨r, Or.inr hr, hcase⟩
        · rintro ⟨r, rfl | hr, _, hdc', hrest⟩
          · rw [hdc] at hdc'; exact absurd hdc' (by simp)
          · exact ⟨r, hr, ‹_›, hdc', hrest⟩
      · rw [Bool.not_eq_true] at hdc
        simp only [get_location_sites, hbr, Bool.false_eq_true, if_false, hdc,
          List.mem_cons, ih]
        constructor
        · rintro (rfl | ⟨r, hr, hcase⟩)
          · exact ⟨site, Or.inl rfl, hbr, hdc, rfl⟩
          · exact ⟨r, Or.inr hr, hcase⟩
        · rintro ⟨r, rfl | hr, hcase⟩
          · exact Or.inl hcase.2.2
          · exact Or.inr ⟨r, hr, hcase⟩

theorem endswith_DC_not_BR {s : String} (h : endswith s "-DC" = true) :
    endswith s "-BR" = false := by
  by_contra hbr
  rw [Bool.not_eq_false] at hbr
  have h1 : "-DC".data <:+ s.data := by
    simpa [endswith, List.isSuffixOf_iff_suffix] using h
  have h2 : "-BR".data <:+ s.data := by
    simpa [endswith, List.isSuffixOf_iff_suffix] using hbr
  rcases List.suffix_or_suffix_of_suffix h1 h2 with hs | hs
  · exact absurd (hs.eq_of_length (by decide)) (by decide)
  · exact absurd (hs.eq_of_length (by decide)) (by decide)

theorem mapM_eq_none_of_mem {α β : Type} (f : α → Option β) {l : List α}
    {a : α} (ha : a ∈ l) (h : f a = none) : l.mapM f = none := by
  induction l with
  | nil => cases ha
  | cons x t ih =>
    rw [List.mapM_cons]
    rcases List.mem_cons.mp ha with rfl | hmem
    · rw [h]; rfl
    · cases hx : f x
      · rfl
      · simp only [hx, Option.bind_eq_bind, Option.some_bind]
        rw [ih hmem]
        rfl

theorem sitesE_eq_none {rows : List RawRow} {r : RawRow} (hr : r ∈ rows)
    (h : r.name = none ∨ r.city = none) : get_location_sitesE rows = none := by
  induction rows with
  | nil => cases hr
  | cons a t ih =>
    rcases List.mem_cons.mp hr with rfl | hmem
    · rcases h with hn | hc
      · simp [get_location_sitesE, hn]
      · cases han : r.name
        · simp [get_location_sitesE, han]
        · simp [get_location_sitesE, han, hc]
    · cases han : a.name
      · simp [get_location_sitesE, han]
      · cases hac : a.city
        · simp [get_location_sitesE, han, hac]
        · simp [get_location_sitesE, han, hac, ih hmem]

/-! ### Claim theorems -/

/-- C1: for the Dallas two-row scenario against an empty store, the claim says
the pipeline creates State "Texas", City "Dallas" under (Texas, State), and
the two sites.  The code never applies `STATE_ABBREVIATION_TO_FULL_NAME_MAP`,
so it actually emits the State record named "TX" and the City record with
parent ("TX", State); the four decisions are indeed all CREATE, but no record
named "Texas" exists.  This theorem evaluates the code at the claimed input. -/
theorem C1_scenario_actual_output :
    get_source_data dallasRows =
      [{ name := "TX", location_type__name := "State",
         status__name := "Active",
         description := "The state of 'TX'." },
       { name := "Dallas", location_type__name := "City",
         status__name := "Active",
         parent__name := some "TX",
         parent__location_type__name := some "State",
         description := "The city of 'Dallas'." },
       { name := "DAL01-DC", location_type__name := "Data Center",
         status__name := "Active",
         parent__name := some "Dallas",
         parent__location_type__name := some "City",
         description := "The Data Center of 'DAL01-DC'." },
       { name := "DAL02-BR", location_type__name := "Branch",
         status__name := "Active",
         parent__name := some "Dallas",
         parent__location_type__name := some "City",
         description := "The Branch of 'DAL02-BR'." }] ∧
    ((run_pipeline [] dallasRows).1.map fun p => p.2) =
      [Decision.create, Decision.create, Decision.create, Decision.create] ∧
    ((get_source_data dallasRows).map fun r => r.name) =
      ["TX", "Dallas", "DAL01-DC", "DAL02-BR"] :=
  ⟨rfl, rfl, rfl⟩

/-- C2: the state-code normalization (modelled from the spec over the source's
literal table, see `normalize_state_code`) maps every two-letter code of the
table to its documented full name and leaves every other string unchanged. -/
theorem C2_state_normalization_total :
    (∀ p ∈ STATE_ABBREVIATION_TO_FULL_NAME_MAP,
        normalize_state_code p.1 = p.2) ∧
    (∀ s : String, s ∉ STATE_ABBREVIATION_TO_FULL_NAME_MAP.map Prod.fst →
        normalize_state_code s = s) := by
  constructor
  · decide
  · intro s hs
    unfold normalize_state_code
    rw [lookup_eq_none_of_key_not_mem hs]
    rfl

theorem C2_witness :
    normalize_state_code "OH" = "Ohio" ∧ normalize_state_code "Ohio" = "Ohio" :=
  ⟨C2_state_normalization_total.1 ("OH", "Ohio") (by decide),
   C2_state_normalization_total.2 "Ohio" (by decide)⟩

/-- C6: the claim says two rows sharing city "Dallas" / state "TX" produce
exactly one City record named "Dallas" with parent (Texas, State).  The
deduplication part holds — exactly one City record is produced — but the code
never applies the abbreviation map, so the parent is ("TX", State), not
("Texas", State).  This theorem evaluates the code at the claimed input. -/
theorem C6_city_dedup_actual_output :
    get_cities dallasRows =
      [{ name := "Dallas", location_type__name := "City",
         status__name := "Active",
         parent__name := some "TX",
         parent__location_type__name := some "State",
         description := "The city of 'Dallas'." }] := rfl

/-- C8: a row missing any of the `name`, `city` or `state` keys makes the whole
expansion raise (`none`) rather than skipping the row. -/
theorem C8_missing_field_fails :
    ∀ (rows : List RawRow) (r : RawRow), r ∈ rows →
      (r.name = none ∨ r.city = none ∨ r.state = none) →
      get_source_dataE rows = none := by
  intro rows r hr hfield
  rcases hfield with hn | hc | hs
  · have hsites := sitesE_eq_none hr (Or.inl hn)
    cases hst : get_statesE rows
    · simp [get_source_dataE, hst]
    · cases hct : get_citiesE rows
      · simp [get_source_dataE, hst, hct]
      · simp [get_source_dataE, hst, hct, hsites]
  · have hcities : get_citiesE rows = none := by
      unfold get_citiesE
      rw [mapM_eq_none_of_mem _ hr (by simp [hc])]
      rfl
    cases hst : get_statesE rows
    · simp [get_source_dataE, hst]
    · simp [get_source_dataE, hst, hcities]
  · have hstates : get_statesE rows = none := by
      unfold get_statesE
      rw [mapM_eq_none_of_mem _ hr hs]
      rfl
    simp [get_source_dataE, hstates]

theorem C8_witness :
    get_source_dataE [⟨some "A-DC", some "C", none⟩] = none :=
  C8_missing_field_fails _ ⟨some "A-DC", some "C", none⟩
    (List.mem_singleton.mpr rfl) (Or.inr (Or.inr rfl))

theorem mem_source_of_states {rows : List Row} {x : LocationRecord}
    (h : x ∈ get_states rows) : x ∈ get_source_data rows := by
  unfold get_source_data
  exact List.mem_append_left _ (List.mem_append_left _ h)

theorem mem_source_of_cities {rows : List Row} {x : LocationRecord}
    (h : x ∈ get_cities rows) : x ∈ get_source_data rows := by
  unfold get_source_data
  exact List.mem_append_left _ (List.mem_append_right _ h)

theorem mem_source_of_sites {rows : List Row} {x : LocationRecord}
    (h : x ∈ (get_location_sites rows).1) : x ∈ get_source_data rows := by
  unfold get_source_data
  exact List.mem_append_right _ h

/-- C4: site classification is an exact suffix match on the row's name: a name
ending in "-BR" contributes a Branch record, a name ending in "-DC" a Data
Center record, and any other name contributes no site record — every record in
the site output bears a classified name — while the warning containing the
offending name is logged and the remaining rows still produce their records. -/
theorem C4_site_classification :
    ∀ (rows : List Row) (r : Row), r ∈ rows →
      (endswith r.name "-BR" = true →
        mkSiteRecord r.name r.city "Branch" ∈ (get_location_sites rows).1) ∧
      (endswith r.name "-DC" = true →
        mkSiteRecord r.name r.city "Data Center" ∈ (get_location_sites rows).1) ∧
      (endswith r.name "-BR" = false → endswith r.name "-DC" = false →
        (∀ x ∈ (get_location_sites rows).1, x.name ≠ r.name) ∧
        siteWarning r.name ∈ (get_location_sites rows).2) := by
  intro rows r hr
  refine ⟨fun hbr => ?_, fun hdc => ?_, fun hbr hdc => ⟨?_, ?_⟩⟩
  · exact mem_sites_iff.mpr ⟨r, hr, Or.inl ⟨hbr, rfl⟩⟩
  · exact mem_sites_iff.mpr ⟨r, hr, Or.inr ⟨endswith_DC_not_BR hdc, hdc, rfl⟩⟩
  · intro x hx heq
    rcases mem_sites_iff.mp hx with ⟨r', _, ⟨hbr', rfl⟩ | ⟨_, hdc', rfl⟩⟩
    · simp only [mkSiteRecord] at heq
      rw [heq] at hbr'
      rw [hbr] at hbr'
      exact absurd hbr' (by decide)
    · simp only [mkSiteRecord] at heq
      rw [heq] at hdc'
      rw [hdc] at hdc'
      exact absurd hdc' (by decide)
  · exact mem_warnings_iff.mpr ⟨r, hr, hbr, hdc, rfl⟩

theorem C4_witness :
    mkSiteRecord "AUSTIN-BR" "Austin" "Branch" ∈
      (get_location_sites austinRows).1 ∧
    mkSiteRecord "AUSTIN-DC" "Austin" "Data Center" ∈
      (get_location_sites austinRows).1 ∧
    (∀ x ∈ (get_location_sites austinRows).1, x.name ≠ "AUSTIN-HQ") ∧
    siteWarning "AUSTIN-HQ" ∈ (get_location_sites austinRows).2 := by
  have h1 := C4_site_classification austinRows ⟨"AUSTIN-BR", "Austin", "TX"⟩
    (by decide)
  have h2 := C4_site_classification austinRows ⟨"AUSTIN-DC", "Austin", "TX"⟩
    (by decide)
  have h3 := C4_site_classification austinRows ⟨"AUSTIN-HQ", "Austin", "TX"⟩
    (by decide)
  exact ⟨h1.1 (by decide), h2.2.1 (by decide),
    (h3.2.2 (by decide) (by decide)).1, (h3.2.2 (by decide) (by decide)).2⟩

/-- C5: the desired-record list is the States segment, then the Cities
segment, then the Sites segment; every City record's parent State record is in
the (earlier) States segment and every Site record's parent City record is in
the (earlier) Cities segment. -/
theorem C5_emission_order :
    ∀ rows : List Row,
      ∃ S C T : List LocationRecord,
        get_source_data rows = S ++ C ++ T ∧
        (∀ x ∈ S, x.location_type__name = "State") ∧
        (∀ x ∈ C, x.location_type__name = "City") ∧
        (∀ x ∈ T, x.location_type__name = "Branch" ∨
          x.location_type__name = "Data Center") ∧
        (∀ c ∈ C, ∃ s ∈ S, s.location_type__name = "State" ∧
          some s.name = c.parent__name) ∧
        (∀ t ∈ T, ∃ c ∈ C, c.location_type__name = "City" ∧
          some c.name = t.parent__name) := by
  intro rows
  refine ⟨get_states rows, get_cities rows, (get_location_sites rows).1,
    rfl, ?_, ?_, ?_, ?_, ?_⟩
  · intro x hx
    rcases mem_get_states_iff.mp hx with ⟨r, _, rfl⟩
    rfl
  · intro x hx
    rcases mem_get_cities_iff.mp hx with ⟨r, _, rfl⟩
    rfl
  · intro x hx
    rcases mem_sites_iff.mp hx with ⟨r, _, ⟨_, rfl⟩ | ⟨_, _, rfl⟩⟩
    · exact Or.inl rfl
    · exact Or.inr rfl
  · intro c hc
    rcases mem_get_cities_iff.mp hc with ⟨r, hr, rfl⟩
    exact ⟨mkStateRecord r.state, mem_get_states_iff.mpr ⟨r, hr, rfl⟩, rfl, rfl⟩
  · intro t ht
    rcases mem_sites_iff.mp ht with ⟨r, hr, ⟨_, rfl⟩ | ⟨_, _, rfl⟩⟩
    · exact ⟨mkCityRecord (r.city, r.state),
        mem_get_cities_iff.mpr ⟨r, hr, rfl⟩, rfl, rfl⟩
    · exact ⟨mkCityRecord (r.city, r.state),
        mem_get_cities_iff.mpr ⟨r, hr, rfl⟩, rfl, rfl⟩

theorem C5_witness :
    ∃ S C T : List LocationRecord,
      get_source_data dallasRows = S ++ C ++ T ∧
      (∀ x ∈ S, x.location_type__name = "State") ∧
      (∀ x ∈ C, x.location_type__name = "City") ∧
      (∀ x ∈ T, x.location_type__name = "Branch" ∨
        x.location_type__name = "Data Center") ∧
      (∀ c ∈ C, ∃ s ∈ S, s.location_type__name = "State" ∧
        some s.name = c.parent__name) ∧
      (∀ t ∈ T, ∃ c ∈ C, c.location_type__name = "City" ∧
        some c.name = t.parent__name) :=
  C5_emission_order dallasRows

/-- C7: the desired set is parent-closed — every State record has no parent,
every City record's parent is a State record of the same output, and every
Site record's parent is a City record of the same output. -/
theorem C7_parent_closure :
    ∀ (rows : List Row), ∀ x ∈ get_source_data rows,
      (x.location_type__name = "State" →
        x.parent__name = none ∧ x.parent__location_type__name = none) ∧
      (x.location_type__name = "City" →
        x.parent__location_type__name = some "State" ∧
        ∃ s ∈ get_source_data rows, s.location_type__name = "State" ∧
          some s.name = x.parent__name) ∧
      ((x.location_type__name = "Branch" ∨
          x.location_type__name = "Data Center") →
        x.parent__location_type__name = some "City" ∧
        ∃ c ∈ get_source_data rows, c.location_type__name = "City" ∧
          some c.name = x.parent__name) := by
  intro rows x hx
  have hx' : x ∈ (get_states rows ++ get_cities rows) ++
      (get_location_sites rows).1 := hx
  rcases List.mem_append.mp hx' with hx'' | hsites
  · rcases List.mem_append.mp hx'' with hstates | hcities
    · rcases mem_get_states_iff.mp hstates with ⟨r, hr, rfl⟩
      refine ⟨fun _ => ⟨rfl, rfl⟩, fun h => ?_, fun h => ?_⟩
      · exact absurd h (by simp [mkStateRecord])
      · rcases h with h | h
        · exact absurd h (by simp [mkStateRecord])
        · exact absurd h (by simp [mkStateRecord])
    · rcases mem_get_cities_iff.mp hcities with ⟨r, hr, rfl⟩
      refine ⟨fun h => ?_, fun _ => ?_, fun h => ?_⟩
      · exact absurd h (by simp [mkCityRecord])
      · exact ⟨rfl, mkStateRecord r.state,
          mem_source_of_states (mem_get_states_iff.mpr ⟨r, hr, rfl⟩), rfl, rfl⟩
      · rcases h with h | h
        · exact absurd h (by simp [mkCityRecord])
        · exact absurd h (by simp [mkCityRecord])
  · rcases mem_sites_iff.mp hsites with ⟨r, hr, ⟨_, rfl⟩ | ⟨_, _, rfl⟩⟩
    · refine ⟨fun h => absurd h (by simp [mkSiteRecord]),
        fun h => absurd h (by simp [mkSiteRecord]),
        fun _ => ⟨rfl, mkCityRecord (r.city, r.state),
          mem_source_of_cities (mem_get_cities_iff.mpr ⟨r, hr, rfl⟩), rfl, rfl⟩⟩
    · refine ⟨fun h => absurd h (by simp [mkSiteRecord]),
        fun h => absurd h (by simp [mkSiteRecord]),
        fun _ => ⟨rfl, mkCityRecord (r.city, r.state),
          mem_source_of_cities (mem_get_cities_iff.mpr ⟨r, hr, rfl⟩), rfl, rfl⟩⟩

theorem C7_witness :
    ((mkCityRecord ("Dallas", "TX")).location_type__name = "State" →
      (mkCityRecord ("Dallas", "TX")).parent__name = none ∧
      (mkCityRecord ("Dallas", "TX")).parent__location_type__name = none) ∧
    ((mkCityRecord ("Dallas", "TX")).location_type__name = "City" →
      (mkCityRecord ("Dallas", "TX")).parent__location_type__name =
        some "State" ∧
      ∃ s ∈ get_source_data dallasRows, s.location_type__name = "State" ∧
        some s.name = (mkCityRecord ("Dallas", "TX")).parent__name) ∧
    (((mkCityRecord ("Dallas", "TX")).location_type__name = "Branch" ∨
        (mkCityRecord ("Dallas", "TX")).location_type__name = "Data Center") →
      (mkCityRecord ("Dallas", "TX")).parent__location_type__name =
        some "City" ∧
      ∃ c ∈ get_source_data dallasRows, c.location_type__name = "City" ∧
        some c.name = (mkCityRecord ("Dallas", "TX")).parent__name) :=
  C7_parent_closure dallasRows (mkCityRecord ("Dallas", "TX")) (by decide)

/-- C10: every Site record carries status "Active" and its description reads
"The <location type> of '<own name>'." with the type word equal to the
record's own location type, which is Branch or Data Center. -/
theorem C10_site_status_description :
    ∀ rows : List Row, ∀ x ∈ (get_location_sites rows).1,
      x.status__name = "Active" ∧
      (x.location_type__name = "Branch" ∨
        x.location_type__name = "Data Center") ∧
      x.description =
        "The " ++ x.location_type__name ++ " of '" ++ x.name ++ "'." := by
  intro rows x hx
  rcases mem_sites_iff.mp hx with ⟨r, _, ⟨_, rfl⟩ | ⟨_, _, rfl⟩⟩
  · exact ⟨rfl, Or.inl rfl, rfl⟩
  · exact ⟨rfl, Or.inr rfl, rfl⟩

theorem C10_witness :
    (mkSiteRecord "DAL01-DC" "Dallas" "Data Center").status__name =
      "Active" ∧
    ((mkSiteRecord "DAL01-DC" "Dallas" "Data Center").location_type__name =
        "Branch" ∨
      (mkSiteRecord "DAL01-DC" "Dallas" "Data Center").location_type__name =
        "Data Center") ∧
    (mkSiteRecord "DAL01-DC" "Dallas" "Data Center").description =
      "The " ++
        (mkSiteRecord "DAL01-DC" "Dallas" "Data Center").location_type__name ++
        " of '" ++ (mkSiteRecord "DAL01-DC" "Dallas" "Data Center").name ++
        "'." :=
  C10_site_status_description dallasRows
    (mkSiteRecord "DAL01-DC" "Dallas" "Data Center") (by decide)

theorem sites_names_sublist (rows : List Row) :
    List.Sublist ((get_location_sites rows).1.map fun x => x.name)
      (rows.map fun r => r.name) := by
  induction rows with
  | nil => simp [get_location_sites]
  | cons site rest ih =>
    by_cases hbr : endswith site.name "-BR" = true
    · simp only [get_location_sites, hbr, if_true, List.map_cons]
      exact List.Sublist.cons₂ _ ih
    · rw [Bool.not_eq_true] at hbr
      by_cases hdc : endswith site.name "-DC" = true
      · simp only [get_location_sites, hbr, Bool.false_eq_true, if_false, hdc,
          if_true, List.map_cons]
        exact List.Sublist.cons₂ _ ih
      · rw [Bool.not_eq_true] at hdc
        simp only [get_location_sites, hbr, hdc, Bool.false_eq_true, if_false,
          List.map_cons]
        exact List.Sublist.cons _ ih

/-- C3 counterexample: two rows whose cities share the name "Springfield" in
two states produce two City records both keyed ("Springfield", "City"), so the
`(name, location_type)` pairs of the desired set are not pairwise distinct. -/
theorem C3_counterexample :
    ¬ ((get_source_data springfieldRows).map record_key).Nodup := by decide

/-- C3 (amended): the `(name, location_type)` pairs of the desired set are
pairwise distinct provided the rows' names are pairwise distinct and any two
rows sharing a city value share a state value. -/
theorem C3_unique_identity :
    ∀ rows : List Row,
      (rows.map fun r => r.name).Nodup →
      (∀ r1 ∈ rows, ∀ r2 ∈ rows, r1.city = r2.city → r1.state = r2.state) →
      ((get_source_data rows).map record_key).Nodup := by
  intro rows hname hcity
  have hS : (get_states rows).map record_key =
      ((rows.map fun r => r.state).dedup).map (fun s => (s, "State")) := by
    rw [get_states, List.map_map]
    rfl
  have hC : (get_cities rows).map record_key =
      ((rows.map fun r => (r.city, r.state)).dedup).map
        (fun p => (p.1, "City")) := by
    rw [get_cities, List.map_map]
    rfl
  have hSnd : (get_source_data rows).map record_key =
      ((get_states rows).map record_key ++ (get_cities rows).map record_key) ++
        (get_location_sites rows).1.map record_key := by
    rw [get_source_data, List.map_append, List.map_append]
  have hSnodup : ((get_states rows).map record_key).Nodup := by
    rw [hS]
    exact (List.nodup_dedup _).map fun a b h => congrArg Prod.fst h
  have hCnodup : ((get_cities rows).map record_key).Nodup := by
    rw [hC]
    apply List.Nodup.map_on ?_ (List.nodup_dedup _)
    intro p hp q hq hfeq
    rcases List.mem_map.mp (List.mem_dedup.mp hp) with ⟨r1, hr1, hpeq⟩
    rcases List.mem_map.mp (List.mem_dedup.mp hq) with ⟨r2, hr2, hqeq⟩
    have h1 : p.1 = q.1 := (Prod.ext_iff.mp hfeq).1
    have h2 : p.2 = q.2 := by
      rw [← hpeq, ← hqeq] at h1 ⊢
      exact hcity r1 hr1 r2 hr2 h1
    exact Prod.ext h1 h2
  have hTnames : ((get_location_sites rows).1.map fun x => x.name).Nodup :=
    (sites_names_sublist rows).nodup hname
  have hTnodup : ((get_location_sites rows).1.map record_key).Nodup := by
    apply List.Nodup.of_map Prod.fst
    rw [List.map_map]
    exact hTnames
  have hSt : ∀ k ∈ (get_states rows).map record_key, k.2 = "State" := by
    intro k hk
    rcases List.mem_map.mp hk with ⟨x, hx, rfl⟩
    rcases mem_get_states_iff.mp hx with ⟨r, _, rfl⟩
    rfl
  have hCt : ∀ k ∈ (get_cities rows).map record_key, k.2 = "City" := by
    intro k hk
    rcases List.mem_map.mp hk with ⟨x, hx, rfl⟩
    rcases mem_get_cities_iff.mp hx with ⟨r, _, rfl⟩
    rfl
  have hTt : ∀ k ∈ (get_location_sites rows).1.map record_key,
      k.2 = "Branch" ∨ k.2 = "Data Center" := by
    intro k hk
    rcases List.mem_map.mp hk with ⟨x, hx, rfl⟩
    rcases mem_sites_iff.mp hx with ⟨r, _, ⟨_, rfl⟩ | ⟨_, _, rfl⟩⟩
    · exact Or.inl rfl
    · exact Or.inr rfl
  rw [hSnd, List.nodup_append, List.nodup_append]
  refine ⟨⟨hSnodup, hCnodup, ?_⟩, hTnodup, ?_⟩
  · intro k hkS hkC
    have h1 := hSt k hkS
    have h2 := hCt k hkC
    rw [h1] at h2
    exact absurd h2 (by decide)
  · intro k hkSC hkT
    rcases List.mem_append.mp hkSC with hkS | hkC
    · have h1 := hSt k hkS
      rcases hTt k hkT with h2 | h2 <;> rw [h1] at h2 <;>
        exact absurd h2 (by decide)
    · have h1 := hCt k hkC
      rcases hTt k hkT with h2 | h2 <;> rw [h1] at h2 <;>
        exact absurd h2 (by decide)

theorem C3_witness :
    (dallasRows.map fun r => r.name).Nodup ∧
    (∀ r1 ∈ dallasRows, ∀ r2 ∈ dallasRows,
      r1.city = r2.city → r1.state = r2.state) ∧
    ((get_source_data dallasRows).map record_key).Nodup :=
  ⟨by decide, by decide,
    C3_unique_identity dallasRows (by decide) (by decide)⟩

/-- One Writer step folded over the desired list: write the record's
attributes unless its decision (against the fixed snapshot) was NO-OP. -/
def write_step (snapshot : Store) (st : Store) (d : LocationRecord) : Store :=
  match reconcile_decision snapshot d with
  | Decision.noop => st
  | _ => (record_key d, record_attrs d) :: st

theorem run_writer_eq (snapshot : Store) (desired : List LocationRecord) :
    run_writer snapshot desired = desired.foldl (write_step snapshot) snapshot := by
  unfold run_writer run_decisions
  rw [List.foldl_map]
  rfl

theorem store_lookup_foldl_preserve (snapshot : Store)
    {todo : List LocationRecord} {st : Store} {k : String × String}
    {v : Option String × Option String × String}
    (hst : store_lookup st k = some v)
    (hcons : ∀ d ∈ todo, record_key d = k → record_attrs d = v) :
    store_lookup (todo.foldl (write_step snapshot) st) k = some v := by
  induction todo generalizing st with
  | nil => exact hst
  | cons d rest ih =>
    rw [List.foldl_cons]
    apply ih
    · cases hdec : reconcile_decision snapshot d
      case noop => simpa only [write_step, hdec] using hst
      case create =>
        simp only [write_step, hdec]
        by_cases hk : k = record_key d
        · rw [store_lookup, if_pos hk,
            hcons d (List.mem_cons_self _ _) hk.symm]
        · rw [store_lookup, if_neg hk]
          exact hst
      case update =>
        simp only [write_step, hdec]
        by_cases hk : k = record_key d
        · rw [store_lookup, if_pos hk,
            hcons d (List.mem_cons_self _ _) hk.symm]
        · rw [store_lookup, if_neg hk]
          exact hst
    · intro d' hd' hk'
      exact hcons d' (List.mem_cons_of_mem _ hd') hk'

theorem store_lookup_foldl_writes (snapshot : Store)
    {todo : List LocationRecord} {st : Store}
    (hcons : ∀ d1 ∈ todo, ∀ d2 ∈ todo,
      record_key d1 = record_key d2 → record_attrs d1 = record_attrs d2)
    (hnoop : ∀ d ∈ todo, reconcile_decision snapshot d = Decision.noop →
      store_lookup st (record_key d) = some (record_attrs d)) :
    ∀ d ∈ todo,
      store_lookup (todo.foldl (write_step snapshot) st) (record_key d) =
        some (record_attrs d) := by
  induction todo generalizing st with
  | nil => intro d hd; cases hd
  | cons d0 rest ih =>
    intro d hd
    rw [List.foldl_cons]
    rcases List.mem_cons.mp hd with rfl | hdrest
    · apply store_lookup_foldl_preserve snapshot ?_ ?_
      · cases hdec : reconcile_decision snapshot d
        case noop =>
          simp only [write_step, hdec]
          exact hnoop d (List.mem_cons_self _ _) hdec
        case create =>
          simp only [write_step, hdec]
          rw [store_lookup, if_pos rfl]
        case update =>
          simp only [write_step, hdec]
          rw [store_lookup, if_pos rfl]
      · intro d' hd' hk'
        exact hcons d' (List.mem_cons_of_mem _ hd') d
          (List.mem_cons_self _ _) hk'
    · apply ih
      · intro d1 h1 d2 h2
        exact hcons d1 (List.mem_cons_of_mem _ h1) d2
          (List.mem_cons_of_mem _ h2)
      · intro d' hd'' hdec'
        have base := hnoop d' (List.mem_cons_of_mem _ hd'') hdec'
        cases hdec0 : reconcile_decision snapshot d0
        case noop => simpa only [write_step, hdec0] using base
        case create =>
          simp only [write_step, hdec0]
          by_cases hk : record_key d' = record_key d0
          · rw [store_lookup, if_pos hk,
              hcons d0 (List.mem_cons_self _ _) d'
                (List.mem_cons_of_mem _ hd'') hk.symm]
          · rw [store_lookup, if_neg hk]
            exact base
        case update =>
          simp only [write_step, hdec0]
          by_cases hk : record_key d' = record_key d0
          · rw [store_lookup, if_pos hk,
              hcons d0 (List.mem_cons_self _ _) d'
                (List.mem_cons_of_mem _ hd'') hk.symm]
          · rw [store_lookup, if_neg hk]
            exact base
      · exact hdrest

theorem reconcile_noop_iff (snapshot : Store) (d : LocationRecord) :
    reconcile_decision snapshot d = Decision.noop ↔
      store_lookup snapshot (record_key d) = some (record_attrs d) := by
  unfold reconcile_decision
  cases hl : store_lookup snapshot (record_key d) with
  | none => simp
  | some v =>
    by_cases heq : v = record_attrs d
    · simp [heq]
    · simp [heq]

/-- C9 counterexample: a CSV whose two rows share the site name "DUP-DC" but
not the city yields, on the second run against the store left by the first
run, an UPDATE decision — the pipeline is not idempotent for every CSV. -/
theorem C9_counterexample :
    Decision.update ∈
      ((run_pipeline (run_pipeline [] dupRows).2 dupRows).1.map
        fun p => p.2) := by decide

/-- C9 (amended): re-running the pipeline on an unchanged CSV against the
store left by the first run yields only NO-OP decisions, provided any two
desired records sharing the `(name, location_type)` key agree on the compared
`(parent_name, parent_location_type, status)` attributes (which holds in
particular when the keys are pairwise distinct, the spec's §3 invariant). -/
theorem C9_idempotent_when_consistent :
    ∀ (store : Store) (rows : List Row),
      (∀ d1 ∈ get_source_data rows, ∀ d2 ∈ get_source_data rows,
        record_key d1 = record_key d2 → record_attrs d1 = record_attrs d2) →
      ∀ p ∈ (run_pipeline (run_pipeline store rows).2 rows).1,
        p.2 = Decision.noop := by
  intro store rows hcons p hp
  have hp' : p ∈ run_decisions (run_pipeline store rows).2
      (get_source_data rows) := hp
  rcases List.mem_map.mp hp' with ⟨d, hd, rfl⟩
  have hlook : store_lookup (run_pipeline store rows).2 (record_key d) =
      some (record_attrs d) := by
    show store_lookup (run_writer store (get_source_data rows)) _ = _
    rw [run_writer_eq]
    apply store_lookup_foldl_writes store hcons ?_ d hd
    intro d' hd' hdec
    exact (reconcile_noop_iff store d').mp hdec
  show reconcile_decision (run_pipeline store rows).2 d = Decision.noop
  exact (reconcile_noop_iff _ d).mpr hlook

theorem C9_witness :
    (∀ d1 ∈ get_source_data dallasRows, ∀ d2 ∈ get_source_data dallasRows,
      record_key d1 = record_key d2 → record_attrs d1 = record_attrs d2) ∧
    (∀ p ∈ (run_pipeline (run_pipeline [] dallasRows).2 dallasRows).1,
      p.2 = Decision.noop) :=
  ⟨by decide, C9_idempotent_when_consistent [] dallasRows (by decide)⟩

theorem get_statesE_toRaw (rows : List Row) :
    get_statesE (rows.map Row.toRaw) = some (get_states rows) := by
  unfold get_statesE get_states
  suffices h : ((rows.map Row.toRaw).mapM fun r : RawRow => r.state) =
      some (rows.map fun r => r.state) by
    rw [h]
    rfl
  induction rows with
  | nil => rfl
  | cons r t ih =>
    rw [List.map_cons, List.mapM_cons, ih]
    rfl

theorem get_citiesE_toRaw (rows : List Row) :
    get_citiesE (rows.map Row.toRaw) = some (get_cities rows) := by
  unfold get_citiesE get_cities
  suffices h : ((rows.map Row.toRaw).mapM
        fun r : RawRow => do pure ((← r.city), (← r.state))) =
      some (rows.map fun r => (r.city, r.state)) by
    rw [h]
    rfl
  induction rows with
  | nil => rfl
  | cons r t ih =>
    rw [List.map_cons, List.mapM_cons, ih]
    rfl

theorem get_location_sitesE_toRaw (rows : List Row) :
    get_location_sitesE (rows.map Row.toRaw) =
      some (get_location_sites rows) := by
  induction rows with
  | nil => rfl
  | cons site rest ih =>
    rw [List.map_cons]
    show (do
        let site_name ← (Row.toRaw site).name
        let city_name ← (Row.toRaw site).city
        let tail ← get_location_sitesE (rest.map Row.toRaw)
        if endswith site_name "-BR" then
          pure (mkSiteRecord site_name city_name "Branch" :: tail.1, tail.2)
        else if endswith site_name "-DC" then
          pure (mkSiteRecord site_name city_name "Data Center" :: tail.1,
            tail.2)
        else
          pure (tail.1, siteWarning site_name :: tail.2)) =
      some (get_location_sites (site :: rest))
    rw [ih]
    show (if endswith site.name "-BR" then
        some (mkSiteRecord site.name site.city "Branch" ::
          (get_location_sites rest).1, (get_location_sites rest).2)
      else if endswith site.name "-DC" then
        some (mkSiteRecord site.name site.city "Data Center" ::
          (get_location_sites rest).1, (get_location_sites rest).2)
      else
        some ((get_location_sites rest).1,
          siteWarning site.name :: (get_location_sites rest).2)) =
      some (get_location_sites (site :: rest))
    by_cases hbr : endswith site.name "-BR" = true
    · simp [get_location_sites, hbr]
    · rw [Bool.not_eq_true] at hbr
      by_cases hdc : endswith site.name "-DC" = true
      · simp [get_location_sites, hbr, hdc]
      · rw [Bool.not_eq_true] at hdc
        simp [get_location_sites, hbr, hdc]

/-- On well-formed rows (every key present) the fallible embedding agrees with
the total one. -/
theorem get_source_dataE_agrees (rows : List Row) :
    get_source_dataE (rows.map Row.toRaw) = some (get_source_data rows) := by
  unfold get_source_dataE get_source_data
  rw [get_statesE_toRaw, get_citiesE_toRaw, get_location_sitesE_toRaw]
  rfl

end WayneJobs
